import Mathlib

/-!
Verification of the accessibility subsystem of gera2ld/xterm.js
(src/AccessibilityManager.ts) against its natural-language specification.

The TypeScript source is shallowly embedded: the mutable fields of
`AccessibilityManager` and `NavigationMode` become structure fields, each
method becomes a state-transforming function, DOM nodes are identified by
`Nat` identities drawn from a fresh-identity counter, and operations that
can throw a JavaScript `TypeError` (property access on `undefined`/`null`)
return the partially-updated state together with an error value.
-/

/-- A thrown JavaScript error. The only kind this code can raise is a
`TypeError` from dereferencing `undefined` or `null`. -/
inductive JsErr where
  | typeError
deriving DecidableEq, Repr

/-- One item appended to the live region. The source appends either a
literal character (`textContent += char`, line 138/145), a non-breaking
space entity (`innerHTML += nbsp entity`, line 136/143), or the fixed
overflow notice string (line 152). -/
inductive LiveItem where
  | char (c : Char)
  | nbsp
  | notice
deriving DecidableEq, Repr

/-- Source line 11: `const MAX_ROWS_TO_READ = 20`. -/
def MAX_ROWS_TO_READ : Nat := 20

/-- The live-announcer part of `AccessibilityManager`'s state:
`_liveRegion` content (as the sequence of appended items),
`_liveRegionLineCount` (line 19) and `_charsToConsume` (line 35). -/
structure AMState where
  liveRegion : List LiveItem
  liveRegionLineCount : Nat
  charsToConsume : List Char
deriving DecidableEq, Repr

/-- The item `_onChar` appends for a character: a space becomes the
non-breaking-space entity (source lines 133-139, 142-145), every other
character is appended literally. -/
def appendedItem (c : Char) : LiveItem :=
  if c = ' ' then LiveItem.nbsp else LiveItem.char c

/-- Source lines 127-165, `AccessibilityManager._onChar`.  The `isMac`
branch (lines 156-163) only re-attaches the live-region node to the tree on
macOS and touches none of the fields modelled here, so it is omitted. -/
def onChar (char : Char) (s : AMState) : AMState :=
  if s.liveRegionLineCount < MAX_ROWS_TO_READ + 1 then
    let s1 :=
      match s.charsToConsume with
      | shiftedChar :: rest =>
        if shiftedChar ≠ char then
          { s with liveRegion := s.liveRegion ++ [appendedItem char],
                   charsToConsume := rest }
        else
          { s with charsToConsume := rest }
      | [] =>
        { s with liveRegion := s.liveRegion ++ [appendedItem char] }
    if char = '\n' then
      let s2 := { s1 with liveRegionLineCount := s1.liveRegionLineCount + 1 }
      if s2.liveRegionLineCount = MAX_ROWS_TO_READ + 1 then
        { s2 with liveRegion := s2.liveRegion ++ [LiveItem.notice] }
      else s2
    else s1
  else s

/-- Source lines 167-177, `AccessibilityManager._clearLiveRegion` (the
`isMac` detach branch is again omitted: it only moves the node). -/
def clearLiveRegion (s : AMState) : AMState :=
  { s with liveRegion := [], liveRegionLineCount := 0 }

/-- Source lines 179-182, `AccessibilityManager._onKey`. -/
def onKey (keyChar : Char) (s : AMState) : AMState :=
  let s1 := clearLiveRegion s
  { s1 with charsToConsume := s1.charsToConsume ++ [keyChar] }

/-- Source lines 121-125, `AccessibilityManager._onTab`: feeds
`spaceCount` spaces through `_onChar`. -/
def onTab (spaceCount : Nat) (s : AMState) : AMState :=
  match spaceCount with
  | 0 => s
  | n + 1 => onTab n (onChar ' ' s)

/-- Feeding a sequence of characters through `_onChar`, first in the list
first. -/
def feedChars (cs : List Char) (s : AMState) : AMState :=
  cs.foldl (fun t c => onChar c t) s

/-- Number of copies of the overflow notice in the live region. -/
def noticeCount (l : List LiveItem) : Nat :=
  l.countP (fun i => i = LiveItem.notice)

lemma noticeCount_append (a b : List LiveItem) :
    noticeCount (a ++ b) = noticeCount a + noticeCount b := by
  simp [noticeCount, List.countP_append]

lemma noticeCount_appendedItem (c : Char) : noticeCount [appendedItem c] = 0 := by
  unfold appendedItem
  split <;> simp [noticeCount, List.countP_cons, List.countP_nil]

lemma noticeCount_notice : noticeCount [LiveItem.notice] = 1 := by decide

lemma onChar_blocked (c : Char) (s : AMState)
    (h : MAX_ROWS_TO_READ + 1 ≤ s.liveRegionLineCount) : onChar c s = s := by
  unfold onChar
  simp [Nat.not_lt.mpr h]

/-- The inductive invariant behind the overflow ceiling: the line counter
never passes 21, and the overflow notice is in the live region exactly once
if and only if the counter has reached 21. -/
def AMInv (s : AMState) : Prop :=
  s.liveRegionLineCount ≤ MAX_ROWS_TO_READ + 1 ∧
  noticeCount s.liveRegion =
    (if s.liveRegionLineCount = MAX_ROWS_TO_READ + 1 then 1 else 0)

lemma amInv_onChar (c : Char) (s : AMState) (h : AMInv s) : AMInv (onChar c s) := by
  obtain ⟨h1, h2⟩ := h
  unfold AMInv onChar MAX_ROWS_TO_READ at *
  rcases hq : s.charsToConsume with _ | ⟨k, rest⟩ <;>
    simp only [hq] <;> split_ifs <;>
    constructor <;>
    simp_all [noticeCount_append, noticeCount_appendedItem, noticeCount_notice] <;>
    first
    | decide
    | omega

lemma amInv_feedChars (cs : List Char) (s : AMState) (h : AMInv s) :
    AMInv (feedChars cs s) := by
  induction cs generalizing s with
  | nil => exact h
  | cons c cs ih =>
    have : feedChars (c :: cs) s = feedChars cs (onChar c s) := by
      simp [feedChars]
    rw [this]
    exact ih _ (amInv_onChar c s h)

/-- C4: for every sequence of `_onChar` calls after a clear (empty live
region, zero line counter, any pending-keystroke queue), the line counter
exceeds 20 only with the overflow notice present exactly once, the counter
never passes 21, once the counter has reached 21 a further `_onChar` is a
complete no-op, and a clear resets the counter to 0. -/
theorem liveRegion_overflow_invariant (cs q : List Char) :
    (20 < (feedChars cs ⟨[], 0, q⟩).liveRegionLineCount →
      noticeCount (feedChars cs ⟨[], 0, q⟩).liveRegion = 1) ∧
    (feedChars cs ⟨[], 0, q⟩).liveRegionLineCount ≤ MAX_ROWS_TO_READ + 1 ∧
    (∀ c, MAX_ROWS_TO_READ + 1 ≤ (feedChars cs ⟨[], 0, q⟩).liveRegionLineCount →
      onChar c (feedChars cs ⟨[], 0, q⟩) = feedChars cs ⟨[], 0, q⟩) ∧
    (clearLiveRegion (feedChars cs ⟨[], 0, q⟩)).liveRegionLineCount = 0 := by
  have hinv : AMInv (feedChars cs ⟨[], 0, q⟩) := by
    apply amInv_feedChars
    constructor
    · exact Nat.zero_le _
    · simp [noticeCount, MAX_ROWS_TO_READ, List.countP_nil]
  obtain ⟨h1, h2⟩ := hinv
  refine ⟨?_, h1, ?_, rfl⟩
  · intro hgt
    have : (feedChars cs ⟨[], 0, q⟩).liveRegionLineCount = MAX_ROWS_TO_READ + 1 := by
      unfold MAX_ROWS_TO_READ at *
      omega
    rw [this] at h2
    simpa using h2
  · intro c hc
    exact onChar_blocked c _ hc

/-- Witness for C4 at the spec's example input: 21 line feeds from a
cleared state put the counter at 21 with the notice present exactly once,
and a further character is ignored. -/
theorem liveRegion_overflow_invariant_witness :
    noticeCount (feedChars (List.replicate 21 '\n') ⟨[], 0, []⟩).liveRegion = 1 ∧
    onChar 'x' (feedChars (List.replicate 21 '\n') ⟨[], 0, []⟩) =
      feedChars (List.replicate 21 '\n') ⟨[], 0, []⟩ :=
  ⟨(liveRegion_overflow_invariant (List.replicate 21 '\n') []).1 (by decide),
   (liveRegion_overflow_invariant (List.replicate 21 '\n') []).2.2.1 'x' (by decide)⟩

/-- C5: echo suppression.  From a state with an empty pending-keystroke
queue, `_onKey c` then `_onChar c` leaves the live buffer unchanged (the
dequeued keystroke equals the output character), while `_onKey c` then
`_onChar d` with `d ≠ c` appends `d`; in general `_onChar` dequeues at most
one pending keystroke, and with an empty queue and the ceiling not reached
the character is always appended. -/
theorem onChar_echo_suppression (s : AMState) (c d : Char)
    (hq : s.charsToConsume = []) (hcd : d ≠ c) :
    (onChar c (onKey c s)).liveRegion = (onKey c s).liveRegion ∧
    (onChar d (onKey c s)).liveRegion = (onKey c s).liveRegion ++ [appendedItem d] ∧
    (∀ (e : Char) (t : AMState),
      t.charsToConsume.length - 1 ≤ (onChar e t).charsToConsume.length ∧
      (onChar e t).charsToConsume.length ≤ t.charsToConsume.length) ∧
    (∀ (e : Char) (t : AMState), t.charsToConsume = [] →
      t.liveRegionLineCount < MAX_ROWS_TO_READ + 1 →
      (onChar e t).liveRegion =
        t.liveRegion ++ [appendedItem e] ++
          (if e = '\n' ∧ t.liveRegionLineCount + 1 = MAX_ROWS_TO_READ + 1
            then [LiveItem.notice] else [])) := by
  refine ⟨?_, ?_, ?_, ?_⟩
  · unfold onKey clearLiveRegion onChar MAX_ROWS_TO_READ
    simp [hq]
    split_ifs <;> simp_all
  · unfold onKey clearLiveRegion onChar MAX_ROWS_TO_READ
    simp [hq, hcd]
    split_ifs <;> simp_all
  · intro e t
    unfold onChar
    rcases ht : t.charsToConsume with _ | ⟨k, rest⟩ <;>
      simp only [ht] <;> split_ifs <;> simp_all
  · intro e t ht hlt
    unfold onChar MAX_ROWS_TO_READ at *
    simp only [ht]
    split_ifs <;> simp_all

/-- Witness for C5 at the spec's example: key then matching output leaves
the buffer empty, key then the differing output appends it. -/
theorem onChar_echo_suppression_witness :
    (onChar 'a' (onKey 'a' ⟨[], 0, []⟩)).liveRegion =
      (onKey 'a' (⟨[], 0, []⟩ : AMState)).liveRegion ∧
    (onChar 'b' (onKey 'a' ⟨[], 0, []⟩)).liveRegion =
      (onKey 'a' (⟨[], 0, []⟩ : AMState)).liveRegion ++ [appendedItem 'b'] :=
  ⟨(onChar_echo_suppression ⟨[], 0, []⟩ 'a' 'b' rfl (by decide)).1,
   (onChar_echo_suppression ⟨[], 0, []⟩ 'a' 'b' rfl (by decide)).2.1⟩

/-- C9: space encoding.  Below the ceiling, `_onChar ' '` with an empty
queue, or with a dequeued keystroke that differs from the space, appends
the non-breaking-space marker rather than a literal space; every non-space
character that is appended is appended as a literal character item. -/
theorem onChar_space_encoding (s : AMState) (c k : Char) (rest : List Char)
    (hcount : s.liveRegionLineCount < MAX_ROWS_TO_READ + 1) :
    (s.charsToConsume = [] →
      (onChar ' ' s).liveRegion = s.liveRegion ++ [LiveItem.nbsp]) ∧
    (s.charsToConsume = k :: rest → k ≠ ' ' →
      (onChar ' ' s).liveRegion = s.liveRegion ++ [LiveItem.nbsp]) ∧
    (s.charsToConsume = [] → c ≠ ' ' →
      (onChar c s).liveRegion = s.liveRegion ++ [LiveItem.char c] ++
        (if c = '\n' ∧ s.liveRegionLineCount + 1 = MAX_ROWS_TO_READ + 1
          then [LiveItem.notice] else [])) ∧
    (s.charsToConsume = k :: rest → k ≠ c → c ≠ ' ' →
      (onChar c s).liveRegion = s.liveRegion ++ [LiveItem.char c] ++
        (if c = '\n' ∧ s.liveRegionLineCount + 1 = MAX_ROWS_TO_READ + 1
          then [LiveItem.notice] else [])) := by
  refine ⟨?_, ?_, ?_, ?_⟩
  · intro hq
    unfold onChar MAX_ROWS_TO_READ at *
    simp only [hq]
    split_ifs <;> simp_all [appendedItem]
  · intro hq hk
    unfold onChar MAX_ROWS_TO_READ at *
    simp only [hq]
    split_ifs <;> simp_all [appendedItem]
  · intro hq hc
    unfold onChar MAX_ROWS_TO_READ at *
    simp only [hq]
    split_ifs <;> simp_all [appendedItem]
  · intro hq hk hc
    unfold onChar MAX_ROWS_TO_READ at *
    simp only [hq]
    split_ifs <;> simp_all [appendedItem]

/-- Witness for C9: from the cleared empty-queue state, a space appends the
non-breaking-space marker and the character x appends a literal item. -/
theorem onChar_space_encoding_witness :
    (onChar ' ' ⟨[], 0, []⟩).liveRegion = ([] : List LiveItem) ++ [LiveItem.nbsp] ∧
    (onChar 'x' ⟨[], 0, []⟩).liveRegion =
      ([] : List LiveItem) ++ [LiveItem.char 'x'] ++
        (if 'x' = '\n' ∧ 0 + 1 = MAX_ROWS_TO_READ + 1
          then [LiveItem.notice] else []) :=
  ⟨(onChar_space_encoding ⟨[], 0, []⟩ 'x' 'k' [] (by decide)).1 rfl,
   (onChar_space_encoding ⟨[], 0, []⟩ 'x' 'k' [] (by decide)).2.2.1 rfl (by decide)⟩

/-- C10: an echo-suppressed line feed still counts.  Below the ceiling,
when the head of the pending-keystroke queue is a line feed, `_onChar`
applied to a line feed appends no character item, yet increments the line
counter (and, when that increment reaches 21, appends the overflow notice). -/
theorem onChar_linefeed_suppressed_counts (s : AMState) (rest : List Char)
    (hq : s.charsToConsume = '\n' :: rest)
    (hc : s.liveRegionLineCount < MAX_ROWS_TO_READ + 1) :
    (onChar '\n' s).liveRegionLineCount = s.liveRegionLineCount + 1 ∧
    (onChar '\n' s).charsToConsume = rest ∧
    (onChar '\n' s).liveRegion = s.liveRegion ++
      (if s.liveRegionLineCount + 1 = MAX_ROWS_TO_READ + 1
        then [LiveItem.notice] else []) := by
  unfold onChar MAX_ROWS_TO_READ at *
  simp only [hq]
  split_ifs <;> simp_all

/-- Witness for C10: at counter 20 with a pending line-feed keystroke, the
suppressed line feed pushes the counter to 21 and appends only the
notice. -/
theorem onChar_linefeed_suppressed_counts_witness :
    (onChar '\n' ⟨[], 20, ['\n']⟩).liveRegionLineCount = 20 + 1 ∧
    (onChar '\n' ⟨[], 20, ['\n']⟩).charsToConsume = [] ∧
    (onChar '\n' ⟨[], 20, ['\n']⟩).liveRegion = ([] : List LiveItem) ++
      (if 20 + 1 = MAX_ROWS_TO_READ + 1 then [LiveItem.notice] else []) :=
  onChar_linefeed_suppressed_counts ⟨[], 20, ['\n']⟩ [] rfl (by decide)

/-- The navigation-mode state touched by the arrow handlers:
`_navigationModeFocusedRow` (source line 214, a JavaScript number, so
modelled as `Int`), the terminal buffer's `ydisp` scroll offset read and
written through `scrollLines`, the mirrored `_rowElements` (as node
identities), and which node currently carries the active-item id. -/
structure NavMState where
  navigationModeFocusedRow : Int
  ydisp : Nat
  rowElements : List Nat
  activeDescendant : Option Nat
deriving DecidableEq, Repr

/-- Source lines 317-335, `NavigationMode._navigateToElement`.  When
`row < 0` and `ydisp > 0` the terminal is asked to scroll back one line and
the method returns early, before the focused-row assignment.  Otherwise the
active-item id is removed from the previously selected node,
`_navigationModeFocusedRow` is assigned `row`, and
`this._rowElements[row].id = ...` is executed: for `row` outside
`[0, rowElements.length)` the indexing yields `undefined` in JavaScript and
the `.id` assignment throws a `TypeError`, after the focused-row field has
already been mutated. -/
def navigateToElement (row : Int) (s : NavMState) : NavMState × Option JsErr :=
  if row < 0 ∧ 0 < s.ydisp then
    ({ s with ydisp := s.ydisp - 1 }, none)
  else
    let s1 := { s with activeDescendant := none,
                       navigationModeFocusedRow := row }
    if 0 ≤ row then
      match s.rowElements[row.toNat]? with
      | some node => ({ s1 with activeDescendant := some node }, none)
      | none => (s1, some JsErr.typeError)
    else
      (s1, some JsErr.typeError)

/-- Source lines 304-309, `NavigationMode._onArrowUp`: navigate to the row
above and report the event handled; a `TypeError` thrown inside
`_navigateToElement` propagates, so no value is returned. -/
def onArrowUp (s : NavMState) : NavMState × Except JsErr Bool :=
  match navigateToElement (s.navigationModeFocusedRow - 1) s with
  | (s1, none) => (s1, Except.ok true)
  | (s1, some e) => (s1, Except.error e)

/-- Source lines 311-315, `NavigationMode._onArrowDown`. -/
def onArrowDown (s : NavMState) : NavMState × Except JsErr Bool :=
  match navigateToElement (s.navigationModeFocusedRow + 1) s with
  | (s1, none) => (s1, Except.ok true)
  | (s1, some e) => (s1, Except.error e)

/-- Navigation mode active with the focused row at index 0, no scrollback
available (`ydisp = 0`), two mirrored rows. -/
def navTopState : NavMState :=
  { navigationModeFocusedRow := 0, ydisp := 0,
    rowElements := [100, 101], activeDescendant := some 100 }

/-- C1 (failing input): with the focused row at 0 and `ydisp = 0`, arrow-up
does not clamp: `_navigateToElement (-1)` falls through the scroll branch,
sets the focused row to -1, and the `this._rowElements[-1].id` assignment
throws a `TypeError`, so the handler never reports the event handled. -/
theorem arrowUp_at_top_without_scrollback_throws :
    (onArrowUp navTopState).1.navigationModeFocusedRow = -1 ∧
    (onArrowUp navTopState).2 = Except.error JsErr.typeError :=
  ⟨rfl, rfl⟩

/-- Navigation mode active with the focused row on the last mirrored row
(rows = 2). -/
def navBottomState : NavMState :=
  { navigationModeFocusedRow := 1, ydisp := 0,
    rowElements := [100, 101], activeDescendant := some 101 }

/-- C3 (failing input): arrow movement is not clamped to `[0, rows)`.
With `rows = 2` and the focused row at 1, arrow-down assigns focused row 2,
which is outside the mirrored range, and the out-of-range node access
throws a `TypeError`. -/
theorem arrowDown_at_bottom_escapes_range :
    (onArrowDown navBottomState).1.navigationModeFocusedRow =
      (navBottomState.rowElements.length : Int) ∧
    ¬((onArrowDown navBottomState).1.navigationModeFocusedRow <
      (navBottomState.rowElements.length : Int)) ∧
    (onArrowDown navBottomState).2 = Except.error JsErr.typeError :=
  ⟨rfl, by decide, rfl⟩

/-- The row-mirroring state touched by `_onResize`: the `_rowElements`
array and the row container's child list (node identities, kept in lockstep
by the source), plus the fresh-identity counter standing for
`document.createElement` in `_createAccessibilityTreeNode`
(source lines 115-119). -/
structure RowsState where
  rowElements : List Nat
  containerChildren : List Nat
  nextId : Nat
deriving DecidableEq, Repr

/-- JavaScript `this._rowElements[i] = node`.  The only call site uses
`i = containerChildren.length`, which equals `rowElements.length` while the
two sequences are in lockstep, making the write an append; the sparse-array
case `i > length` is not modelled. -/
def jsArraySet (l : List Nat) (i v : Nat) : List Nat :=
  if i < l.length then l.set i v else l ++ [v]

/-- Source lines 102-106, the grow loop of `_onResize`, iterated a given
number of times: each step runs `_createAccessibilityTreeNode` (a fresh
node), writes it at index `containerChildren.length` of `_rowElements`, and
appends it to the container's children. -/
def growRows : Nat → RowsState → RowsState
  | 0, s => s
  | n + 1, s =>
    let node := s.nextId
    growRows n
      { rowElements := jsArraySet s.rowElements s.containerChildren.length node,
        containerChildren := s.containerChildren ++ [node],
        nextId := s.nextId + 1 }

/-- Source lines 107-110, the shrink loop of `_onResize`:
`removeChild(this._rowElements.pop())` drops the final row element and
removes that node from the container's children (the final child while the
two sequences are in lockstep). -/
def shrinkRows : Nat → RowsState → RowsState
  | 0, s => s
  | n + 1, s =>
    shrinkRows n { s with rowElements := s.rowElements.dropLast,
                          containerChildren := s.containerChildren.dropLast }

/-- Source lines 101-113, `AccessibilityManager._onResize`.  The grow loop
runs while `containerChildren.length < this._terminal.rows` (the terminal
has already updated its row count when it emits `resize`); the shrink loop
runs while `rowElements.length > rows`, the event payload.
`_refreshRowsDimensions` only writes style heights and is omitted. -/
def onResize (terminalRows rows : Nat) (s : RowsState) : RowsState :=
  let s1 := growRows (terminalRows - s.containerChildren.length) s
  shrinkRows (s1.rowElements.length - rows) s1

/-- Source lines 42-45, the constructor loop filling `_rowElements` and the
row container for the initial row count. -/
def amInitRows (rows : Nat) : RowsState :=
  growRows rows { rowElements := [], containerChildren := [], nextId := 0 }

/-- The run of fresh node identities `a, a+1, ..., a+n-1`. -/
def freshRun : Nat → Nat → List Nat
  | _, 0 => []
  | a, n + 1 => a :: freshRun (a + 1) n

lemma freshRun_length (a n : Nat) : (freshRun a n).length = n := by
  induction n generalizing a with
  | zero => rfl
  | succ n ih => simp [freshRun, ih]

lemma le_of_mem_freshRun {x a n : Nat} (h : x ∈ freshRun a n) : a ≤ x := by
  induction n generalizing a with
  | zero => simp [freshRun] at h
  | succ n ih =>
    simp only [freshRun, List.mem_cons] at h
    rcases h with h | h
    · omega
    · have := ih h
      omega

lemma growRows_sync (n : Nat) (s : RowsState)
    (h : s.rowElements = s.containerChildren) :
    growRows n s = ⟨s.rowElements ++ freshRun s.nextId n,
                    s.rowElements ++ freshRun s.nextId n, s.nextId + n⟩ := by
  induction n generalizing s with
  | zero =>
    cases s
    simp_all [growRows, freshRun]
  | succ n ih =>
    have hset : jsArraySet s.rowElements s.containerChildren.length s.nextId =
        s.rowElements ++ [s.nextId] := by
      unfold jsArraySet
      rw [← h]
      simp
    simp only [growRows]
    rw [hset, ih _ (by simp [h])]
    simp [freshRun, List.append_assoc]
    omega

lemma shrinkRows_sync (n : Nat) (s : RowsState)
    (h : s.rowElements = s.containerChildren) :
    shrinkRows n s = ⟨s.rowElements.take (s.rowElements.length - n),
                      s.rowElements.take (s.rowElements.length - n), s.nextId⟩ := by
  induction n generalizing s with
  | zero =>
    cases s
    simp_all [shrinkRows]
  | succ n ih =>
    unfold shrinkRows
    rw [ih _ (by simp [h])]
    rw [List.dropLast_eq_take]
    simp [List.take_take, List.length_take]
    omega

lemma onResize_sync_eq (r : Nat) (s : RowsState)
    (h : s.rowElements = s.containerChildren) :
    onResize r r s =
      ⟨(s.rowElements ++ freshRun s.nextId (r - s.rowElements.length)).take r,
       (s.rowElements ++ freshRun s.nextId (r - s.rowElements.length)).take r,
       s.nextId + (r - s.rowElements.length)⟩ := by
  have hlen : s.containerChildren.length = s.rowElements.length := by rw [h]
  unfold onResize
  rw [growRows_sync _ _ h, hlen]
  rw [shrinkRows_sync _ _ rfl]
  have hA : (s.rowElements ++ freshRun s.nextId (r - s.rowElements.length)).length -
      ((s.rowElements ++ freshRun s.nextId (r - s.rowElements.length)).length - r) = r := by
    simp [freshRun_length]
    omega
  simp [hA, freshRun_length]
  omega

/-- C6: after a resize event with row count `r` (the terminal's own row
count already being `r` when it emits the event), the mirrored row sequence
has length exactly `r`, the container children stay in lockstep with it,
the surviving prefix of existing rows is preserved in order, a shrink only
discards trailing entries, and growth only appends fresh entries at the
end. -/
theorem resize_row_count (s : RowsState) (r : Nat)
    (h : s.rowElements = s.containerChildren) :
    (onResize r r s).rowElements.length = r ∧
    (onResize r r s).containerChildren = (onResize r r s).rowElements ∧
    (onResize r r s).rowElements.take s.rowElements.length =
      s.rowElements.take r ∧
    (r ≤ s.rowElements.length →
      (onResize r r s).rowElements = s.rowElements.take r) ∧
    (s.rowElements.length ≤ r →
      (onResize r r s).rowElements =
        s.rowElements ++ freshRun s.nextId (r - s.rowElements.length)) := by
  rw [onResize_sync_eq r s h]
  refine ⟨?_, rfl, ?_, ?_, ?_⟩
  · simp [List.length_take, freshRun_length]
    omega
  · by_cases hc : s.rowElements.length ≤ r
    · have hmin : min s.rowElements.length r = s.rowElements.length := by omega
      rw [List.take_take, hmin, List.take_left, List.take_of_length_le hc]
    · have h0 : r - s.rowElements.length = 0 := by omega
      rw [h0]
      have hmin : min s.rowElements.length r = r := by omega
      simp only [freshRun, List.append_nil, List.take_take, hmin]
  · intro hc
    have h0 : r - s.rowElements.length = 0 := by omega
    rw [h0]
    simp [freshRun]
  · intro hc
    apply List.take_of_length_le
    simp [freshRun_length]
    omega

/-- Witness for C6 at a concrete shrink: resizing a three-row mirror to two
rows leaves exactly two rows, the original first two. -/
theorem resize_row_count_witness :
    (onResize 2 2 (amInitRows 3)).rowElements.length = 2 ∧
    (onResize 2 2 (amInitRows 3)).rowElements = (amInitRows 3).rowElements.take 2 :=
  ⟨(resize_row_count (amInitRows 3) 2 rfl).1,
   (resize_row_count (amInitRows 3) 2 rfl).2.2.2.1 (by decide)⟩

/-- C7 (counterexample): shrinking a two-row mirror to one row and
regrowing it to two rows does not restore the old node at index 1; the
regrown slot holds a freshly created node with a different identity. -/
theorem shrink_regrow_identity_counterexample :
    (onResize 2 2 (onResize 1 1 (amInitRows 2))).rowElements[1]? ≠
      (amInitRows 2).rowElements[1]? ∧
    (onResize 2 2 (onResize 1 1 (amInitRows 2))).rowElements.length =
      (amInitRows 2).rowElements.length := by decide

/-- C7 (amended): across shrink-to-`m`-then-regrow-to-`r` with `m ≤ r` and
`r` the original row count, only the surviving indices `0..m-1` keep their
node identities; the regrown indices `m..r-1` hold freshly created nodes
that did not appear in the original row set. -/
theorem shrink_regrow_amended (s : RowsState) (m r : Nat)
    (h : s.rowElements = s.containerChildren)
    (hm : m ≤ s.rowElements.length) (hr : s.rowElements.length = r)
    (hb : ∀ x ∈ s.rowElements, x < s.nextId) :
    (onResize r r (onResize m m s)).rowElements =
      s.rowElements.take m ++ freshRun s.nextId (r - m) ∧
    (∀ i, i < m →
      (onResize r r (onResize m m s)).rowElements[i]? = s.rowElements[i]?) ∧
    (∀ i x, m ≤ i →
      (onResize r r (onResize m m s)).rowElements[i]? = some x →
      x ∉ s.rowElements) := by
  have h1 := onResize_sync_eq m s h
  have hm0 : m - s.rowElements.length = 0 := by omega
  rw [hm0] at h1
  simp only [freshRun, List.append_nil, Nat.add_zero] at h1
  have h2 := onResize_sync_eq r (onResize m m s) (by rw [h1])
  rw [h1] at h2
  simp only at h2
  have hlen1 : (s.rowElements.take m).length = m := by
    simp [List.length_take]
    omega
  rw [hlen1] at h2
  have hlen2 : ((s.rowElements.take m) ++ freshRun s.nextId (r - m)).length = r := by
    simp [freshRun_length, hlen1]
    omega
  have htake : ((s.rowElements.take m) ++ freshRun s.nextId (r - m)).take r =
      (s.rowElements.take m) ++ freshRun s.nextId (r - m) := by
    apply List.take_of_length_le
    omega
  rw [htake] at h2
  have hfinal : (onResize r r (onResize m m s)).rowElements =
      s.rowElements.take m ++ freshRun s.nextId (r - m) := by
    rw [h1, h2]
  refine ⟨hfinal, ?_, ?_⟩
  · intro i hi
    rw [hfinal]
    rw [List.getElem?_append]
    have hi1 : i < (s.rowElements.take m).length := by omega
    simp only [hi1, if_pos]
    rw [List.getElem?_take]
    simp [hi]
  · intro i x hi hx
    rw [hfinal] at hx
    have hge : (s.rowElements.take m).length ≤ i := by omega
    rw [List.getElem?_append_right hge] at hx
    have hmem := List.getElem?_mem hx
    have hxge := le_of_mem_freshRun hmem
    intro hcontra
    have := hb x hcontra
    omega

/-- Witness for C7's amended statement: the two-row instance, shrink to one
then regrow to two. -/
theorem shrink_regrow_amended_witness :
    (onResize 2 2 (onResize 1 1 (amInitRows 2))).rowElements =
      (amInitRows 2).rowElements.take 1 ++ freshRun (amInitRows 2).nextId (2 - 1) :=
  (shrink_regrow_amended (amInitRows 2) 1 2 rfl (by decide) (by decide)
    (by decide)).1

/-- The lifecycle state touched by `AccessibilityManager.dispose` (source
lines 82-91).  Fields nulled by disposal are `Option`s; the two lists on
the right record the collaborator invocations dispose makes: which nodes
were passed to `terminal.element.removeChild` and which subscriptions had
their own `dispose` called. -/
structure AMLifecycle where
  accessibilityTreeRoot : Option Nat
  disposables : Option (List Nat)
  rowContainer : Option Nat
  liveRegion : Option Nat
  rowElements : Option (List Nat)
  removedFromParent : List Nat
  disposedCalls : List Nat
deriving DecidableEq, Repr

/-- Source lines 82-91, `AccessibilityManager.dispose`.  Line 83 passes
`this._accessibilityTreeRoot` to `removeChild`: when the field has been
nulled by an earlier call, `removeChild(null)` throws a `TypeError` before
anything else runs.  Line 84 then iterates `this._disposables`, which
likewise throws when nulled.  On success every listed disposable is
disposed once and all the fields are nulled (lines 85-90). -/
def amDispose (s : AMLifecycle) : AMLifecycle × Option JsErr :=
  match s.accessibilityTreeRoot with
  | none => (s, some JsErr.typeError)
  | some root =>
    let s1 := { s with removedFromParent := s.removedFromParent ++ [root] }
    match s1.disposables with
    | none => (s1, some JsErr.typeError)
    | some ds =>
      ({ s1 with disposedCalls := s1.disposedCalls ++ ds,
                 disposables := none, accessibilityTreeRoot := none,
                 rowContainer := none, liveRegion := none,
                 rowElements := none }, none)

/-- Source lines 240-243, `NavigationMode.dispose`: iterates and nulls
`_disposables`; the iteration throws on a nulled field in a second call. -/
def navDispose (disposables : Option (List Nat)) (disposedCalls : List Nat) :
    (Option (List Nat) × List Nat) × Option JsErr :=
  match disposables with
  | none => ((none, disposedCalls), some JsErr.typeError)
  | some ds => ((none, disposedCalls ++ ds), none)

/-- A freshly constructed `AccessibilityManager`: every field populated,
no collaborator invocations recorded yet. -/
def amConstructed : AMLifecycle :=
  { accessibilityTreeRoot := some 1, disposables := some [10, 11, 12],
    rowContainer := some 2, liveRegion := some 3, rowElements := some [4, 5],
    removedFromParent := [], disposedCalls := [] }

/-- C2 (counterexample): disposing a constructed manager twice throws a
`TypeError` on the second call, because line 83 passes the nulled tree root
to `removeChild`; dispose is not idempotent. -/
theorem dispose_twice_throws :
    (amDispose (amDispose amConstructed).1).2 = some JsErr.typeError ∧
    (amDispose amConstructed).2 = none := by decide

/-- C2 (amended): the first `dispose()` succeeds, removes the tree root
from the terminal element, disposes every subscription exactly once and
nulls the fields; a second call throws a `TypeError` from
`removeChild(null)` and performs no further collaborator invocation (no
subscription is disposed again, nothing more is removed from the parent).
`NavigationMode.dispose` likewise throws on its nulled subscription list
when called twice. -/
theorem dispose_second_call_throws (s : AMLifecycle) (root : Nat) (ds : List Nat)
    (hr : s.accessibilityTreeRoot = some root) (hd : s.disposables = some ds) :
    (amDispose s).2 = none ∧
    (amDispose s).1.accessibilityTreeRoot = none ∧
    (amDispose s).1.disposables = none ∧
    (amDispose s).1.removedFromParent = s.removedFromParent ++ [root] ∧
    (amDispose s).1.disposedCalls = s.disposedCalls ++ ds ∧
    (amDispose (amDispose s).1).2 = some JsErr.typeError ∧
    (amDispose (amDispose s).1).1.disposedCalls = (amDispose s).1.disposedCalls ∧
    (amDispose (amDispose s).1).1.removedFromParent =
      (amDispose s).1.removedFromParent ∧
    (∀ (calls : List Nat),
      (navDispose (navDispose (some ds) calls).1.1
        (navDispose (some ds) calls).1.2).2 = some JsErr.typeError) := by
  unfold amDispose navDispose
  simp [hr, hd]

/-- Witness for C2's amended statement at the constructed manager. -/
theorem dispose_second_call_throws_witness :
    (amDispose amConstructed).2 = none ∧
    (amDispose amConstructed).1.disposedCalls =
      amConstructed.disposedCalls ++ [10, 11, 12] ∧
    (amDispose (amDispose amConstructed).1).2 = some JsErr.typeError :=
  ⟨(dispose_second_call_throws amConstructed 1 [10, 11, 12] rfl rfl).1,
   (dispose_second_call_throws amConstructed 1 [10, 11, 12] rfl rfl).2.2.2.2.1,
   (dispose_second_call_throws amConstructed 1 [10, 11, 12] rfl rfl).2.2.2.2.2.1⟩

/-- Modelled from the spec: the class `RenderDebouncer` is imported from
`./utils/RenderDebouncer`, a file of this repository that is not among the
provided sources, so its state is taken from spec section 4.2: the recorded
range, whether a deferred flush is pending, how many flushes were ever
scheduled, and the flushes performed (each the merged range it covered). -/
structure RenderDebouncer where
  rowStart : Option Nat
  rowEnd : Option Nat
  flushPending : Bool
  timersScheduled : Nat
  flushes : List (Nat × Nat)
deriving DecidableEq, Repr

/-- Modelled from the spec: `refresh(start?, end?)` records the requested
range (defaulting to the full current viewport if omitted) and, if no flush
is already pending, schedules exactly one deferred flush; repeated calls
before the delay elapses merge their ranges, widening to the union, without
scheduling additional flushes. -/
def refresh (viewportRows : Nat) (start0 end0 : Option Nat)
    (s : RenderDebouncer) : RenderDebouncer :=
  let a := start0.getD 0
  let b := end0.getD (viewportRows - 1)
  let a1 := match s.rowStart with | some x => min x a | none => a
  let b1 := match s.rowEnd with | some y => max y b | none => b
  if s.flushPending then
    { s with rowStart := some a1, rowEnd := some b1 }
  else
    { s with rowStart := some a1, rowEnd := some b1, flushPending := true,
             timersScheduled := s.timersScheduled + 1 }

/-- Modelled from the spec: on flush the debouncer invokes the row writer
once with the merged range, then clears the pending state. -/
def flushDebounce (s : RenderDebouncer) : RenderDebouncer :=
  match s.rowStart, s.rowEnd with
  | some a, some b =>
    { s with rowStart := none, rowEnd := none, flushPending := false,
             flushes := s.flushes ++ [(a, b)] }
  | _, _ =>
    { s with rowStart := none, rowEnd := none, flushPending := false }

/-- Applying a whole sequence of `refresh` calls, first in the list first;
each call carries its optional start and end argument. -/
def applyRefreshes (v : Nat) (calls : List (Option Nat × Option Nat))
    (s : RenderDebouncer) : RenderDebouncer :=
  calls.foldl (fun t c => refresh v c.1 c.2 t) s

/-- The effective start of one `refresh` call: the argument, defaulting to
row 0. -/
def effStart (c : Option Nat × Option Nat) : Nat :=
  c.1.getD 0

/-- The effective end of one `refresh` call: the argument, defaulting to
the last viewport row. -/
def effEnd (v : Nat) (c : Option Nat × Option Nat) : Nat :=
  c.2.getD (v - 1)

/-- The start of the merged range after further calls widen an already
recorded start `a`. -/
def mergedStart (calls : List (Option Nat × Option Nat)) (a : Nat) : Nat :=
  calls.foldl (fun x d => min x (d.1.getD 0)) a

/-- The end of the merged range after further calls widen an already
recorded end `b`. -/
def mergedEnd (v : Nat) (calls : List (Option Nat × Option Nat)) (b : Nat) : Nat :=
  calls.foldl (fun y d => max y (d.2.getD (v - 1))) b

lemma refresh_pending (v : Nat) (d : Option Nat × Option Nat)
    (s : RenderDebouncer) (a b : Nat) (hp : s.flushPending = true)
    (h1 : s.rowStart = some a) (h2 : s.rowEnd = some b) :
    refresh v d.1 d.2 s =
      { s with rowStart := some (min a (effStart d)),
               rowEnd := some (max b (effEnd v d)) } := by
  unfold refresh effStart effEnd
  simp [hp, h1, h2]

lemma applyRefreshes_pending (v : Nat) (l : List (Option Nat × Option Nat)) :
    ∀ (s : RenderDebouncer) (a b : Nat), s.flushPending = true →
      s.rowStart = some a → s.rowEnd = some b →
      applyRefreshes v l s =
        { s with rowStart := some (mergedStart l a),
                 rowEnd := some (mergedEnd v l b) } := by
  induction l with
  | nil =>
    intro s a b hp h1 h2
    cases s
    simp_all [applyRefreshes, mergedStart, mergedEnd]
  | cons d l ih =>
    intro s a b hp h1 h2
    have hstep : applyRefreshes v (d :: l) s =
        applyRefreshes v l (refresh v d.1 d.2 s) := rfl
    rw [hstep, refresh_pending v d s a b hp h1 h2,
      ih { s with rowStart := some (min a (effStart d)),
                  rowEnd := some (max b (effEnd v d)) }
        (min a (effStart d)) (max b (effEnd v d)) hp rfl rfl]
    simp [mergedStart, mergedEnd, effStart, effEnd]

lemma mergedStart_le_init (l : List (Option Nat × Option Nat)) (a : Nat) :
    mergedStart l a ≤ a := by
  induction l generalizing a with
  | nil => exact Nat.le_refl a
  | cons d l ih =>
    have h1 : mergedStart (d :: l) a = mergedStart l (min a (d.1.getD 0)) := rfl
    rw [h1]
    exact Nat.le_trans (ih _) (Nat.min_le_left _ _)

lemma mergedStart_le_mem (l : List (Option Nat × Option Nat)) (a : Nat)
    (d : Option Nat × Option Nat) (hd : d ∈ l) :
    mergedStart l a ≤ effStart d := by
  induction l generalizing a with
  | nil => simp at hd
  | cons e l ih =>
    have h1 : mergedStart (e :: l) a = mergedStart l (min a (e.1.getD 0)) := rfl
    rw [h1]
    rcases List.mem_cons.mp hd with heq | hmem
    · subst heq
      exact Nat.le_trans (mergedStart_le_init _ _) (Nat.min_le_right _ _)
    · exact ih _ hmem

lemma init_le_mergedEnd (v : Nat) (l : List (Option Nat × Option Nat))
    (b : Nat) : b ≤ mergedEnd v l b := by
  induction l generalizing b with
  | nil => exact Nat.le_refl b
  | cons d l ih =>
    have h1 : mergedEnd v (d :: l) b = mergedEnd v l (max b (d.2.getD (v - 1))) := rfl
    rw [h1]
    exact Nat.le_trans (Nat.le_max_left _ _) (ih _)

lemma mem_le_mergedEnd (v : Nat) (l : List (Option Nat × Option Nat))
    (b : Nat) (d : Option Nat × Option Nat) (hd : d ∈ l) :
    effEnd v d ≤ mergedEnd v l b := by
  induction l generalizing b with
  | nil => simp at hd
  | cons e l ih =>
    have h1 : mergedEnd v (e :: l) b = mergedEnd v l (max b (e.2.getD (v - 1))) := rfl
    rw [h1]
    rcases List.mem_cons.mp hd with heq | hmem
    · subst heq
      exact Nat.le_trans (Nat.le_max_right _ _) (init_le_mergedEnd _ _ _)
    · exact ih _ hmem

/-- C8: from an idle debouncer, any nonempty sequence of `refresh` calls
arriving before the pending flush fires schedules exactly one flush between
them, never flushes on its own, records the merged range — which covers
every requested range (the start is at or below each effective start, the
end at or above each effective end) — and the one deferred flush covers
exactly that merged range and clears the pending state. -/
theorem refresh_debounce_coalesces (v : Nat) (s : RenderDebouncer)
    (c : Option Nat × Option Nat) (rest : List (Option Nat × Option Nat))
    (hp : s.flushPending = false) (h1 : s.rowStart = none)
    (h2 : s.rowEnd = none) :
    (applyRefreshes v (c :: rest) s).timersScheduled = s.timersScheduled + 1 ∧
    (applyRefreshes v (c :: rest) s).flushPending = true ∧
    (applyRefreshes v (c :: rest) s).flushes = s.flushes ∧
    (applyRefreshes v (c :: rest) s).rowStart =
      some (mergedStart rest (effStart c)) ∧
    (applyRefreshes v (c :: rest) s).rowEnd =
      some (mergedEnd v rest (effEnd v c)) ∧
    (∀ d ∈ c :: rest, mergedStart rest (effStart c) ≤ effStart d ∧
      effEnd v d ≤ mergedEnd v rest (effEnd v c)) ∧
    (flushDebounce (applyRefreshes v (c :: rest) s)).flushes =
      s.flushes ++ [(mergedStart rest (effStart c), mergedEnd v rest (effEnd v c))] ∧
    (flushDebounce (applyRefreshes v (c :: rest) s)).flushPending = false := by
  have hfirst : refresh v c.1 c.2 s =
      { s with rowStart := some (effStart c), rowEnd := some (effEnd v c),
               flushPending := true,
               timersScheduled := s.timersScheduled + 1 } := by
    unfold refresh effStart effEnd
    simp [hp, h1, h2]
  have hstep : applyRefreshes v (c :: rest) s =
      applyRefreshes v rest (refresh v c.1 c.2 s) := rfl
  have hall : applyRefreshes v (c :: rest) s =
      { s with rowStart := some (mergedStart rest (effStart c)),
               rowEnd := some (mergedEnd v rest (effEnd v c)),
               flushPending := true,
               timersScheduled := s.timersScheduled + 1 } := by
    rw [hstep, hfirst,
      applyRefreshes_pending v rest _ (effStart c) (effEnd v c) rfl rfl rfl]
  rw [hall]
  refine ⟨rfl, rfl, rfl, rfl, rfl, ?_, ?_, ?_⟩
  · intro d hd
    rcases List.mem_cons.mp hd with heq | hmem
    · subst heq
      exact ⟨mergedStart_le_init _ _, init_le_mergedEnd _ _ _⟩
    · exact ⟨mergedStart_le_mem _ _ _ hmem, mem_le_mergedEnd _ _ _ _ hmem⟩
  · rfl
  · rfl

/-- Witness for C8 at the idle initial debouncer and the spec's example
sequence `refresh(0,2)`, `refresh(1,4)`, `refresh(5,5)`: one timer is
scheduled and the single flush covers `[0,5]`. -/
theorem refresh_debounce_coalesces_witness :
    (applyRefreshes 10 [(some 0, some 2), (some 1, some 4), (some 5, some 5)]
      ⟨none, none, false, 0, []⟩).timersScheduled = 0 + 1 ∧
    (flushDebounce (applyRefreshes 10
      [(some 0, some 2), (some 1, some 4), (some 5, some 5)]
      ⟨none, none, false, 0, []⟩)).flushes =
      ([] : List (Nat × Nat)) ++ [(0, 5)] :=
  ⟨(refresh_debounce_coalesces 10 ⟨none, none, false, 0, []⟩ (some 0, some 2)
      [(some 1, some 4), (some 5, some 5)] rfl rfl rfl).1,
   (refresh_debounce_coalesces 10 ⟨none, none, false, 0, []⟩ (some 0, some 2)
      [(some 1, some 4), (some 5, some 5)] rfl rfl rfl).2.2.2.2.2.2.1⟩
